import Mathlib

/-!
Verification of the IdleMover module (`src/modules/IdleMover/main.py`) of the
teamspeak3-python-bot repository.

The module runs a reconciliation loop: each tick it snapshots the connected
clients, moves clients idle for more than `idle_time_seconds` to the AFK
channel (recording their origin channel in the dict `client_channels`), and
moves clients that became active again back to their recorded origin, subject
to channel capacity and password checks, with a fallback channel on failure.

Shallow embedding choices:
* A client dict from `clientlist(["times"])` becomes the structure `Client`;
  the string-valued fields that the code pipes through `int(...)` are modelled
  as `Option Int` (`none` = key missing from the dict, triggering the
  `.get(...)` defaults / `in client.keys()` checks of the code).
* `client_channels` (a Python dict keyed by the decimal clid string) becomes
  the association list `Store` over `Int` keys, with dict assignment,
  `del` and key-membership as `storeInsert`, `storeErase`, `storeContains`.
* The float config `idle_time_seconds` and Python's true division `/ 1000`
  are modelled over `ℚ`; `int(x) / 1000` becomes `Rat.divInt x 1000`, which
  equals `(x : ℚ) / 1000` (lemma `divInt_1000_eq`).
* Network calls on `ts3conn` are oracles in the environment `Env`:
  each call site reads the oracle's outcome (success value or raised
  TS3 error with its numeric `id`).
* Observable actions (issued moves, successful moves, fallback invocations,
  entry deletions, log messages) are recorded in an event trace `List Ev`
  so that theorems can state which code path produced a state change.
* Python's `UnboundLocalError` (reachable in `update_servergroup_ids_list`
  and in `move_all_back` when `channelinfo` fails with an id other than 768)
  is modelled with `Except`: `.error` aborts the surrounding loop exactly as
  the uncaught exception does, and is caught by the tick-level
  `except BaseException` of `auto_move_all`.
-/

/-- A client record as returned by `ts3conn.clientlist(["times"])`: a dict of
decimal strings. `none` models a missing key. -/
structure Client where
  clid : Option Int
  cid : Option Int
  client_idle_time : Option Int
  client_type : Option Int
  client_database_id : Option String
  deriving DecidableEq, Repr

/-- One entry of `ts3conn.channellist()`: channel id and current occupancy. -/
structure ChannelEntry where
  cid : Int
  total_clients : Int
  deriving DecidableEq, Repr

/-- Result of a successful `channelinfo` query: capacity limit and
password flag. -/
structure ChannelInfo where
  channel_maxclients : Int
  channel_flag_password : Int
  deriving DecidableEq, Repr

/-- A raised `TS3QueryException`, carrying its numeric error id `e.id`. -/
structure TSErr where
  id : Int
  deriving DecidableEq, Repr

/-- One entry of `ts3conn.servergrouplist()`. -/
structure Servergroup where
  name : String
  sgid : String
  deriving DecidableEq, Repr

/-- A Python runtime error that is not a TS3 exception: the
`UnboundLocalError` raised when a local variable is read before assignment. -/
inductive PyErr where
  | unboundLocal
  deriving DecidableEq, Repr

/-- The module configuration (module-level globals set by `setup`). -/
structure Config where
  dry_run : Bool
  servergroups_to_exclude : Option String
  enable_auto_move_back : Bool
  resp_channel_settings : Bool
  fallback_action : Option String
  idle_time_seconds : ℚ

/-- Observable actions of one pass, recorded in order of occurrence. -/
inductive Ev where
  | moveAfkIssued (clid : Int)
  | movedToAfk (clid : Int)
  | moveBackIssued (clid : Int)
  | movedBack (clid : Int)
  | fallbackInvoked (clid : Int)
  | fallbackRemoved (clid : Int)
  | logChannelGoneInfo (clid : Int)
  | logGone (clid : Int)
  | logFull (clid : Int)
  | logPassword (clid : Int)
  | logUnclassified (clid : Int)
  deriving DecidableEq, Repr

/-- The tracking store `self.client_channels`: clid ↦ origin channel id. -/
abbrev Store := List (Int × Int)

/-- Python `key in dict.keys()`. -/
def storeContains (st : Store) (k : Int) : Bool :=
  st.any (fun p => p.1 == k)

/-- Python `dict[key] = value` (inserts or overwrites). -/
def storeInsert (st : Store) (k v : Int) : Store :=
  (k, v) :: st.filter (fun p => p.1 != k)

/-- Python `del dict[key]` on a key known to be present (total on the
association list; every call site checks presence first or catches
`KeyError`). -/
def storeErase (st : Store) (k : Int) : Store :=
  st.filter (fun p => p.1 != k)

/-- Python `int(dict.get(key))` for a key known to be present. -/
def storeGet (st : Store) (k : Int) : Int :=
  ((st.find? (fun p => p.1 == k)).map Prod.snd).getD 0

/-- The oracle environment: configuration, cached state of the `IdleMover`
object, and the outcome of every `ts3conn` call a pass can make. -/
structure Env where
  cfg : Config
  /-- `self.afk_channel`, resolved by `get_channel_by_name(channel_name)`. -/
  afk_channel : Int
  /-- `self.servergroup_ids_to_ignore` as built by
  `update_servergroup_ids_list`. -/
  servergroup_ids_to_ignore : List String
  /-- Oracle for `get_servergroups_by_client(cldbid)` (already including its
  internal fail-open: a failed query yields `[]`). -/
  clientGroups : Option String → List String
  /-- `self.idle_list` as left by `update_client_list` (`none` before the
  first update). -/
  snapshot : Option (List Client)
  /-- Outcome of `clientmove(afk_channel, clid)`: `true` = no exception. -/
  moveOkAfk : Int → Bool
  /-- Outcome of `channellist()`. -/
  channellistResult : Except TSErr (List ChannelEntry)
  /-- Outcome of `channelinfo cid=channel_id`. -/
  channelinfo : Int → Except TSErr ChannelInfo
  /-- Outcome of `clientmove(channel_id, client_id)` in `move_all_back`:
  `none` = success, `some e` = raised `TS3QueryException` with id `e.id`. -/
  clientmoveBack : Int → Int → Option TSErr
  /-- Outcome of `get_channel_by_name(fallback_channel_name)`. -/
  findFallbackChannel : Except Unit Int
  /-- Outcome of `clientmove(fallback_channel, client_id)`:
  `true` = no exception. -/
  clientmoveFallback : Int → Int → Bool

/-- `update_servergroup_ids_list`: with no exclusion configured the ignore
list stays empty; otherwise the names from `servergrouplist()` are matched
against the comma-separated exclusion string. When `servergrouplist()`
raises, the `except TS3QueryException` handler only logs, control falls
through to the `for servergroup in servergroup_list:` loop, and reading the
never-assigned local `servergroup_list` raises `UnboundLocalError`. -/
def update_servergroup_ids_list (servergroups_to_exclude : Option String)
    (servergrouplistResult : Except Unit (List Servergroup)) :
    Except PyErr (List String) :=
  match servergroups_to_exclude with
  | none => .ok []
  | some excl =>
    match servergrouplistResult with
    | .error _ => .error .unboundLocal
    | .ok lst =>
      .ok ((lst.filter (fun g => (excl.splitOn ",").contains g.name)).map
        (fun g => g.sgid))

/-- The `client_is_in_group` loop of `get_idle_list`: does the client belong
to one of the servergroups that should be ignored? -/
def excludedByGroup (env : Env) (c : Client) : Bool :=
  (env.clientGroups c.client_database_id).any
    (fun g => env.servergroup_ids_to_ignore.contains g)

/-- The per-client filter of `get_idle_list`: `false` mirrors one of the
`continue` statements, `true` means the client is appended to
`client_idle_list`. -/
def idleKeep (env : Env) (c : Client) : Bool :=
  match c.cid with
  | none => false
  | some cid =>
    if c.client_type == some 1 then false
    else if (match env.cfg.servergroups_to_exclude with
             | some _ => excludedByGroup env c
             | none => false) then false
    else match c.client_idle_time with
      | none => false
      | some it =>
        if cid == env.afk_channel then false
        else if Rat.divInt it 1000 ≤ env.cfg.idle_time_seconds then false
        else true

/-- `get_idle_list`: filter the snapshot; `none` (no snapshot yet) yields
the empty list. -/
def get_idle_list (env : Env) : List Client :=
  match env.snapshot with
  | some l => l.filter (idleKeep env)
  | none => []

/-- The per-client filter of `get_back_list`. -/
def backKeep (env : Env) (c : Client) : Bool :=
  match c.cid with
  | none => false
  | some cid =>
    match c.client_idle_time with
    | none => false
    | some it =>
      if cid != env.afk_channel then false
      else if Rat.divInt it 1000 > env.cfg.idle_time_seconds then false
      else true

/-- `get_back_list`: filter the snapshot; `none` yields the empty list. -/
def get_back_list (env : Env) : List Client :=
  match env.snapshot with
  | some l => l.filter (backKeep env)
  | none => []

/-- The loop body of `move_to_afk`: in dry-run only log; otherwise issue
`clientmove(afk_channel, clid)` and, only when it does not raise, record
`client_channels[clid] = cid`. -/
def move_to_afk_go (env : Env) : List Client → Store → Store × List Ev
  | [], st => (st, [])
  | c :: rest, st =>
    if env.cfg.dry_run then move_to_afk_go env rest st
    else
      let clid := c.clid.getD (-1)
      if env.moveOkAfk clid then
        let r := move_to_afk_go env rest (storeInsert st clid (c.cid.getD 0))
        (r.1, Ev.moveAfkIssued clid :: Ev.movedToAfk clid :: r.2)
      else
        let r := move_to_afk_go env rest st
        (r.1, Ev.moveAfkIssued clid :: r.2)

/-- `move_to_afk`: run the loop body over `get_idle_list()`. -/
def move_to_afk (env : Env) (st : Store) : Store × List Ev :=
  move_to_afk_go env (get_idle_list env) st

/-- `fallback_action(client_id)`: no-op when no fallback channel is
configured (`None` or the string "None"); otherwise resolve the fallback
channel and move the client there, deleting the tracking entry on success
(`del` raising `KeyError` on an absent entry is caught and only logged). -/
def fallback_action_fn (env : Env) (st : Store) (client_id : Int) :
    Store × List Ev :=
  match env.cfg.fallback_action with
  | none => (st, [Ev.fallbackInvoked client_id])
  | some name =>
    if name = "None" then (st, [Ev.fallbackInvoked client_id])
    else
      match env.findFallbackChannel with
      | .error _ => (st, [Ev.fallbackInvoked client_id])
      | .ok ch =>
        if env.clientmoveFallback ch client_id then
          if storeContains st client_id then
            (storeErase st client_id,
              [Ev.fallbackInvoked client_id, Ev.fallbackRemoved client_id])
          else (st, [Ev.fallbackInvoked client_id])
        else (st, [Ev.fallbackInvoked client_id])

/-- The tail of one `move_all_back` loop iteration, from the
`try: clientmove(channel_id, client_id)` on: on success delete the tracking
entry; on a `TS3QueryException` log by error id (`768` gone, `777`/`778`
full, `781` password, `else` unclassified — the `else` belongs to the `781`
test only) and invoke `fallback_action(client_id)`. -/
def move_back_do_move (env : Env) (st : Store) (channel_id client_id : Int) :
    Store × List Ev :=
  match env.clientmoveBack channel_id client_id with
  | none =>
    (storeErase st client_id,
      [Ev.moveBackIssued client_id, Ev.movedBack client_id])
  | some e =>
    let logs :=
      (if e.id = 768 then [Ev.logGone client_id] else [])
      ++ (if e.id = 777 ∨ e.id = 778 then [Ev.logFull client_id] else [])
      ++ (if e.id = 781 then [Ev.logPassword client_id]
          else [Ev.logUnclassified client_id])
    let r := fallback_action_fn env st client_id
    (r.1, Ev.moveBackIssued client_id :: (logs ++ r.2))

/-- One `move_all_back` loop iteration for one client of the back list.
`.error` models the `UnboundLocalError` raised at
`int(channel_info.get("channel_maxclients"))` when the preceding
`channelinfo` call failed with an id other than 768 (the handler neither
re-raises nor assigns `channel_info`) and the capacity check is reached
(`resp_channel_settings` on and the origin found in `channel_list`). -/
def move_back_client (env : Env) (chlist : List ChannelEntry) (st : Store)
    (c : Client) : Except (Store × List Ev) (Store × List Ev) :=
  let clid := c.clid.getD (-1)
  if storeContains st clid then
    let channel_id := storeGet st clid
    let client_id := clid
    let channel_details := chlist.find? (fun ch => ch.cid == channel_id)
    match env.channelinfo channel_id with
    | .error e =>
      if e.id = 768 then .ok (st, [Ev.logChannelGoneInfo client_id])
      else
        if env.cfg.resp_channel_settings && channel_details.isSome then
          .error (st, [])
        else .ok (move_back_do_move env st channel_id client_id)
    | .ok info =>
      match channel_details with
      | some details =>
        if env.cfg.resp_channel_settings then
          if info.channel_maxclients != -1
              && decide (details.total_clients ≥ info.channel_maxclients) then
            .ok (fallback_action_fn env st client_id)
          else if info.channel_flag_password != 0 then
            .ok (fallback_action_fn env st client_id)
          else .ok (move_back_do_move env st channel_id client_id)
        else .ok (move_back_do_move env st channel_id client_id)
      | none => .ok (move_back_do_move env st channel_id client_id)
  else .ok (st, [])

/-- The `for client in back_list:` loop of `move_all_back`; an uncaught
exception in an iteration (`.error`) aborts the remaining iterations. -/
def move_all_back_go (env : Env) (chlist : List ChannelEntry) :
    List Client → Store → Except (Store × List Ev) (Store × List Ev)
  | [], st => .ok (st, [])
  | c :: rest, st =>
    match move_back_client env chlist st c with
    | .error r => .error r
    | .ok r =>
      match move_all_back_go env chlist rest r.1 with
      | .ok s => .ok (s.1, r.2 ++ s.2)
      | .error s => .error (s.1, r.2 ++ s.2)

/-- `move_all_back`: compute the back list, fetch `channellist()` once
(returning early when it raises), then process each client. -/
def move_all_back (env : Env) (st : Store) :
    Except (Store × List Ev) (Store × List Ev) :=
  let back_list := get_back_list env
  match env.channellistResult with
  | .error _ => .ok (st, [])
  | .ok chlist => move_all_back_go env chlist back_list st

/-- The body of one `auto_move_all` tick after `update_client_list`:
`move_all_back` (when enabled) then `move_to_afk`; an exception escaping
`move_all_back` is caught by the tick's `except BaseException`, which logs
and ends the pass, so `move_to_afk` does not run that tick. -/
def tick (env : Env) (st : Store) : Store × List Ev :=
  match (if env.cfg.enable_auto_move_back then move_all_back env st
         else .ok (st, [])) with
  | .error r => r
  | .ok r =>
    let m := move_to_afk env r.1
    (m.1, r.2 ++ m.2)

/-- The `ClientLeftEvent` handler `client_left`: drop the leaving client's
tracking entry when present. -/
def client_left (client_id : Int) (st : Store) : Store :=
  if storeContains st client_id then storeErase st client_id else st

/-- Store component of a loop result, on either the normal or the
exceptional path. -/
def resStore (r : Except (Store × List Ev) (Store × List Ev)) : Store :=
  match r with
  | .ok p => p.1
  | .error p => p.1

/-- Event component of a loop result, on either the normal or the
exceptional path. -/
def resEvs (r : Except (Store × List Ev) (Store × List Ev)) : List Ev :=
  match r with
  | .ok p => p.2
  | .error p => p.2

/-! ### Concrete fixtures used by the witnesses -/

/-- Witness configuration: the module defaults with
`respect_channel_settings` off and no fallback channel. -/
def cfgW : Config :=
  { dry_run := false, servergroups_to_exclude := none,
    enable_auto_move_back := true, resp_channel_settings := false,
    fallback_action := none, idle_time_seconds := 600 }

/-- A client sitting in the AFK channel (cid 1) that is active again. -/
def cBack : Client :=
  { clid := some 5, cid := some 1, client_idle_time := some 0,
    client_type := some 0, client_database_id := some "77" }

/-- A client in channel 10 idle for 700 seconds. -/
def cIdle : Client :=
  { clid := some 6, cid := some 10, client_idle_time := some 700000,
    client_type := some 0, client_database_id := some "78" }

/-- A client idle for exactly the threshold (600000 ms = 600 s). -/
def cIdleExact : Client :=
  { clid := some 7, cid := some 10, client_idle_time := some 600000,
    client_type := some 0, client_database_id := some "79" }

/-- A client idle for one millisecond above the threshold. -/
def cIdleJust : Client :=
  { clid := some 8, cid := some 10, client_idle_time := some 600001,
    client_type := some 0, client_database_id := some "80" }

/-- Witness environment: AFK channel 1, snapshot with one return candidate
and one idle candidate, every network call succeeding. -/
def envW : Env :=
  { cfg := cfgW, afk_channel := 1, servergroup_ids_to_ignore := [],
    clientGroups := fun _ => [], snapshot := some [cBack, cIdle],
    moveOkAfk := fun _ => true, channellistResult := .ok [],
    channelinfo := fun _ => .ok ⟨-1, 0⟩,
    clientmoveBack := fun _ _ => none,
    findFallbackChannel := .error (),
    clientmoveFallback := fun _ _ => false }

/-- Witness store: client 5 was moved to AFK from channel 10. -/
def stW : Store := [(5, 10)]

/-- `envW` with dry-run enabled. -/
def envDry : Env := { envW with cfg := { cfgW with dry_run := true } }

/-- `envW` with the two boundary clients in the snapshot. -/
def envC2 : Env := { envW with snapshot := some [cIdleExact, cIdleJust] }

/-- `envW` where the move back raises error id 781 (invalid password). -/
def envFail : Env :=
  { envW with clientmoveBack := fun _ _ => some ⟨781⟩ }

/-- `envW` where `channelinfo` raises error id 768 (channel gone). -/
def envGone : Env := { envW with channelinfo := fun _ => .error ⟨768⟩ }

/-- `envW` with channel settings respected and origin channel 10 full
(occupancy 5 at capacity 5). -/
def envFull : Env :=
  { envW with
    cfg := { cfgW with resp_channel_settings := true },
    channelinfo := fun _ => .ok ⟨5, 0⟩,
    channellistResult := .ok [⟨10, 5⟩] }

/-- `envW` with channel settings respected and `channelinfo` raising an
error id other than 768. -/
def envCrash : Env :=
  { envW with
    cfg := { cfgW with resp_channel_settings := true },
    channelinfo := fun _ => .error ⟨0⟩,
    channellistResult := .ok [⟨10, 3⟩] }

/-! ### Basic lemmas about the store and the idle-time guard -/

/-- `Rat.divInt x 1000` (the model of Python's `x / 1000` on an `int` `x`)
is division by `1000` in `ℚ`. -/
theorem divInt_1000_eq (x : Int) : Rat.divInt x 1000 = (x : ℚ) / 1000 := by
  rw [Rat.divInt_eq_div]; norm_num

theorem storeContains_iff {st : Store} {k : Int} :
    storeContains st k = true ↔ ∃ p ∈ st, p.1 = k := by
  simp [storeContains, List.any_eq_true]

theorem storeContains_erase {st : Store} {k j : Int} :
    storeContains (storeErase st k) j = true ↔
      j ≠ k ∧ storeContains st j = true := by
  simp only [storeErase, storeContains_iff, List.mem_filter, bne_iff_ne,
    decide_eq_true_eq]
  constructor
  · rintro ⟨p, ⟨hp, hne⟩, hk⟩
    exact ⟨hk ▸ hne, p, hp, hk⟩
  · rintro ⟨hne, p, hp, hk⟩
    exact ⟨p, ⟨hp, hk ▸ hne⟩, hk⟩

theorem storeContains_insert {st : Store} {k v j : Int} :
    storeContains (storeInsert st k v) j = true ↔
      j = k ∨ storeContains st j = true := by
  simp only [storeInsert, storeContains_iff, List.mem_cons, List.mem_filter,
    bne_iff_ne, decide_eq_true_eq]
  constructor
  · rintro ⟨p, hp | ⟨hp, _⟩, hk⟩
    · left; rw [← hk, hp]
    · right; exact ⟨p, hp, hk⟩
  · rintro (rfl | ⟨p, hp, hk⟩)
    · exact ⟨(j, v), Or.inl rfl, rfl⟩
    · by_cases hjk : j = k
      · exact ⟨(k, v), Or.inl rfl, hjk.symm⟩
      · exact ⟨p, Or.inr ⟨hp, hk ▸ hjk⟩, hk⟩

theorem storeContains_erase_eq {st : Store} {k j : Int}
    (hin : storeContains st k = true)
    (hout : storeContains (storeErase st j) k = false) : k = j := by
  by_contra hne
  rw [storeContains_erase.mpr ⟨hne, hin⟩] at hout
  exact Bool.true_eq_false.mp hout

/-- `fallback_action` never adds a tracking entry. -/
theorem fallback_action_fn_sub (env : Env) (st : Store) (i k : Int)
    (h : storeContains (fallback_action_fn env st i).1 k = true) :
    storeContains st k = true := by
  unfold fallback_action_fn at h
  split at h
  · exact h
  · split at h
    · exact h
    · split at h
      · exact h
      · split at h
        · split at h
          · exact (storeContains_erase.mp h).2
          · exact h
        · exact h

/-- An entry removed by `fallback_action` is the entry of the client passed
to it, and its removal is the traced `del` after a successful fallback
move. -/
theorem fallback_action_fn_removed (env : Env) (st : Store) (i k : Int)
    (hin : storeContains st k = true)
    (hout : storeContains (fallback_action_fn env st i).1 k = false) :
    k = i ∧ Ev.fallbackRemoved k ∈ (fallback_action_fn env st i).2 := by
  unfold fallback_action_fn at hout ⊢
  split at hout
  · exact absurd (hin.symm.trans hout) (by simp)
  · split at hout
    · exact absurd (hin.symm.trans hout) (by simp)
    · split at hout
      · exact absurd (hin.symm.trans hout) (by simp)
      · split at hout
        · split at hout
          · have hk := storeContains_erase_eq hin hout
            subst hk
            simp_all
          · exact absurd (hin.symm.trans hout) (by simp)
        · exact absurd (hin.symm.trans hout) (by simp)

/-- The move-back attempt never adds a tracking entry. -/
theorem move_back_do_move_sub (env : Env) (st : Store) (ch i k : Int)
    (h : storeContains (move_back_do_move env st ch i).1 k = true) :
    storeContains st k = true := by
  unfold move_back_do_move at h
  split at h
  · exact (storeContains_erase.mp h).2
  · exact fallback_action_fn_sub env st i k h

/-- An entry removed across the move-back attempt was removed either by the
`del` after a successful `clientmove` or by the `del` inside
`fallback_action`. -/
theorem move_back_do_move_removed (env : Env) (st : Store) (ch i k : Int)
    (hin : storeContains st k = true)
    (hout : storeContains (move_back_do_move env st ch i).1 k = false) :
    Ev.movedBack k ∈ (move_back_do_move env st ch i).2 ∨
      Ev.fallbackRemoved k ∈ (move_back_do_move env st ch i).2 := by
  unfold move_back_do_move at hout ⊢
  split at hout
  · have hk := storeContains_erase_eq hin hout
    subst hk
    simp_all
  · obtain ⟨hk, hmem⟩ := fallback_action_fn_removed env st i k hin hout
    subst hk
    exact Or.inr (by simp [hmem])

/-- One back-list iteration never adds a tracking entry. -/
theorem move_back_client_sub (env : Env) (chlist : List ChannelEntry)
    (st : Store) (c : Client) (k : Int)
    (h : storeContains (resStore (move_back_client env chlist st c)) k
      = true) :
    storeContains st k = true := by
  cases h1 : storeContains st (c.clid.getD (-1)) with
  | false => simp [move_back_client, h1, resStore] at h; exact h
  | true =>
    cases h2 : env.channelinfo (storeGet st (c.clid.getD (-1))) with
    | error e =>
      by_cases h3 : e.id = 768
      · simp [move_back_client, h1, h2, h3, resStore] at h; exact h
      · cases h4 : (env.cfg.resp_channel_settings &&
            (List.find? (fun ch =>
              ch.cid == storeGet st (c.clid.getD (-1))) chlist).isSome) with
        | true => simp [move_back_client, h1, h2, h3, h4, resStore] at h
                  exact h
        | false => simp [move_back_client, h1, h2, h3, h4, resStore] at h
                   exact move_back_do_move_sub env st _ _ k h
    | ok info =>
      cases h5 : List.find? (fun ch =>
          ch.cid == storeGet st (c.clid.getD (-1))) chlist with
      | none => simp [move_back_client, h1, h2, h5, resStore] at h
                exact move_back_do_move_sub env st _ _ k h
      | some details =>
        cases h6 : env.cfg.resp_channel_settings with
        | false => simp [move_back_client, h1, h2, h5, h6, resStore] at h
                   exact move_back_do_move_sub env st _ _ k h
        | true =>
          cases h7 : (info.channel_maxclients != -1 &&
              decide (details.total_clients ≥ info.channel_maxclients)) with
          | true => simp [move_back_client, h1, h2, h5, h6, h7, resStore] at h
                    exact fallback_action_fn_sub env st _ k h
          | false =>
            cases h8 : (info.channel_flag_password != 0) with
            | true =>
              simp [move_back_client, h1, h2, h5, h6, h7, h8, resStore] at h
              exact fallback_action_fn_sub env st _ k h
            | false =>
              simp [move_back_client, h1, h2, h5, h6, h7, h8, resStore] at h
              exact move_back_do_move_sub env st _ _ k h

/-- An entry removed across one back-list iteration was removed by the `del`
after a successful move back or by the `del` inside `fallback_action`. -/
theorem move_back_client_removed (env : Env) (chlist : List ChannelEntry)
    (st : Store) (c : Client) (k : Int)
    (hin : storeContains st k = true)
    (hout : storeContains (resStore (move_back_client env chlist st c)) k
      = false) :
    Ev.movedBack k ∈ resEvs (move_back_client env chlist st c) ∨
      Ev.fallbackRemoved k ∈ resEvs (move_back_client env chlist st c) := by
  cases h1 : storeContains st (c.clid.getD (-1)) with
  | false => simp [move_back_client, h1, resStore] at hout; simp [hin] at hout
  | true =>
    cases h2 : env.channelinfo (storeGet st (c.clid.getD (-1))) with
    | error e =>
      by_cases h3 : e.id = 768
      · simp [move_back_client, h1, h2, h3, resStore] at hout
        simp [hin] at hout
      · cases h4 : (env.cfg.resp_channel_settings &&
            (List.find? (fun ch =>
              ch.cid == storeGet st (c.clid.getD (-1))) chlist).isSome) with
        | true =>
          simp [move_back_client, h1, h2, h3, h4, resStore] at hout
          simp [hin] at hout
        | false =>
          simp [move_back_client, h1, h2, h3, h4, resStore] at hout
          simp [move_back_client, h1, h2, h3, h4, resEvs]
          exact move_back_do_move_removed env st _ _ k hin hout
    | ok info =>
      cases h5 : List.find? (fun ch =>
          ch.cid == storeGet st (c.clid.getD (-1))) chlist with
      | none =>
        simp [move_back_client, h1, h2, h5, resStore] at hout
        simp [move_back_client, h1, h2, h5, resEvs]
        exact move_back_do_move_removed env st _ _ k hin hout
      | some details =>
        cases h6 : env.cfg.resp_channel_settings with
        | false =>
          simp [move_back_client, h1, h2, h5, h6, resStore] at hout
          simp [move_back_client, h1, h2, h5, h6, resEvs]
          exact move_back_do_move_removed env st _ _ k hin hout
        | true =>
          cases h7 : (info.channel_maxclients != -1 &&
              decide (details.total_clients ≥ info.channel_maxclients)) with
          | true =>
            simp [move_back_client, h1, h2, h5, h6, h7, resStore] at hout
            simp [move_back_client, h1, h2, h5, h6, h7, resEvs]
            obtain ⟨hk, hmem⟩ :=
              fallback_action_fn_removed env st _ k hin hout
            exact Or.inr hmem
          | false =>
            cases h8 : (info.channel_flag_password != 0) with
            | true =>
              simp [move_back_client, h1, h2, h5, h6, h7, h8, resStore]
                at hout
              simp [move_back_client, h1, h2, h5, h6, h7, h8, resEvs]
              obtain ⟨hk, hmem⟩ :=
                fallback_action_fn_removed env st _ k hin hout
              exact Or.inr hmem
            | false =>
              simp [move_back_client, h1, h2, h5, h6, h7, h8, resStore]
                at hout
              simp [move_back_client, h1, h2, h5, h6, h7, h8, resEvs]
              exact move_back_do_move_removed env st _ _ k hin hout

theorem resStore_ok (p : Store × List Ev) : resStore (.ok p) = p.1 := rfl

theorem resStore_error (p : Store × List Ev) : resStore (.error p) = p.1 := rfl

theorem resEvs_ok (p : Store × List Ev) : resEvs (.ok p) = p.2 := rfl

theorem resEvs_error (p : Store × List Ev) : resEvs (.error p) = p.2 := rfl

/-- The back-list loop never adds a tracking entry. -/
theorem move_all_back_go_sub (env : Env) (chlist : List ChannelEntry) :
    ∀ (l : List Client) (st : Store) (k : Int),
    storeContains (resStore (move_all_back_go env chlist l st)) k = true →
    storeContains st k = true := by
  intro l
  induction l with
  | nil => intro st k h; simpa [move_all_back_go, resStore] using h
  | cons c rest ih =>
    intro st k h
    cases hc : move_back_client env chlist st c with
    | error r =>
      have hr : storeContains r.1 k = true := by
        simpa [move_all_back_go, hc, resStore_error] using h
      exact move_back_client_sub env chlist st c k
        (by rw [hc, resStore_error]; exact hr)
    | ok r =>
      have hr : storeContains r.1 k = true := by
        cases hg : move_all_back_go env chlist rest r.1 with
        | ok s =>
          have hs : storeContains s.1 k = true := by
            simpa [move_all_back_go, hc, hg, resStore_ok] using h
          exact ih r.1 k (by rw [hg, resStore_ok]; exact hs)
        | error s =>
          have hs : storeContains s.1 k = true := by
            simpa [move_all_back_go, hc, hg, resStore_error] using h
          exact ih r.1 k (by rw [hg, resStore_error]; exact hs)
      exact move_back_client_sub env chlist st c k
        (by rw [hc, resStore_ok]; exact hr)

/-- An entry removed across the whole back-list loop was removed by a
successful move back or by the `del` inside `fallback_action`. -/
theorem move_all_back_go_removed (env : Env) (chlist : List ChannelEntry) :
    ∀ (l : List Client) (st : Store) (k : Int),
    storeContains st k = true →
    storeContains (resStore (move_all_back_go env chlist l st)) k = false →
    Ev.movedBack k ∈ resEvs (move_all_back_go env chlist l st) ∨
      Ev.fallbackRemoved k ∈ resEvs (move_all_back_go env chlist l st) := by
  intro l
  induction l with
  | nil =>
    intro st k hin hout
    rw [move_all_back_go, resStore_ok] at hout
    simp [hin] at hout
  | cons c rest ih =>
    intro st k hin hout
    cases hc : move_back_client env chlist st c with
    | error r =>
      have hr : storeContains r.1 k = false := by
        simpa [move_all_back_go, hc, resStore_error] using hout
      have hev := move_back_client_removed env chlist st c k hin
        (by rw [hc, resStore_error]; exact hr)
      rw [hc, resEvs_error] at hev
      simpa [move_all_back_go, hc, resEvs_error] using hev
    | ok r =>
      cases hcr : storeContains r.1 k with
      | true =>
        cases hg : move_all_back_go env chlist rest r.1 with
        | ok s =>
          have hs : storeContains s.1 k = false := by
            simpa [move_all_back_go, hc, hg, resStore_ok] using hout
          have hev := ih r.1 k hcr (by rw [hg, resStore_ok]; exact hs)
          rw [hg, resEvs_ok] at hev
          simp [move_all_back_go, hc, hg, resEvs_ok]
          rcases hev with hev | hev
          · exact Or.inl (Or.inr hev)
          · exact Or.inr (Or.inr hev)
        | error s =>
          have hs : storeContains s.1 k = false := by
            simpa [move_all_back_go, hc, hg, resStore_error] using hout
          have hev := ih r.1 k hcr (by rw [hg, resStore_error]; exact hs)
          rw [hg, resEvs_error] at hev
          simp [move_all_back_go, hc, hg, resEvs_error]
          rcases hev with hev | hev
          · exact Or.inl (Or.inr hev)
          · exact Or.inr (Or.inr hev)
      | false =>
        have hev := move_back_client_removed env chlist st c k hin
          (by rw [hc, resStore_ok]; exact hcr)
        rw [hc, resEvs_ok] at hev
        cases hg : move_all_back_go env chlist rest r.1 with
        | ok s =>
          simp [move_all_back_go, hc, hg, resEvs_ok]
          rcases hev with hev | hev
          · exact Or.inl (Or.inl hev)
          · exact Or.inr (Or.inl hev)
        | error s =>
          simp [move_all_back_go, hc, hg, resEvs_error]
          rcases hev with hev | hev
          · exact Or.inl (Or.inl hev)
          · exact Or.inr (Or.inl hev)

/-- `move_to_afk` never removes a tracking entry. -/
theorem move_to_afk_go_mono (env : Env) :
    ∀ (l : List Client) (st : Store) (k : Int),
    storeContains st k = true →
    storeContains (move_to_afk_go env l st).1 k = true := by
  intro l
  induction l with
  | nil => intro st k h; simpa [move_to_afk_go] using h
  | cons c rest ih =>
    intro st k h
    rw [move_to_afk_go]
    cases hd : env.cfg.dry_run with
    | true => simp only [if_pos rfl]; exact ih st k h
    | false =>
      simp only [Bool.false_eq_true, if_false]
      cases hm : env.moveOkAfk (c.clid.getD (-1)) with
      | true =>
        simp only [if_pos rfl]
        exact ih _ k (storeContains_insert.mpr (Or.inr h))
      | false =>
        simp only [Bool.false_eq_true, if_false]
        exact ih st k h

/-- An entry added by `move_to_afk` comes from a successful
`clientmove` to the AFK channel for that client. -/
theorem move_to_afk_go_added (env : Env) :
    ∀ (l : List Client) (st : Store) (k : Int),
    storeContains (move_to_afk_go env l st).1 k = true →
    storeContains st k = true ∨
      Ev.movedToAfk k ∈ (move_to_afk_go env l st).2 := by
  intro l
  induction l with
  | nil => intro st k h; exact Or.inl (by simpa [move_to_afk_go] using h)
  | cons c rest ih =>
    intro st k h
    rw [move_to_afk_go] at h ⊢
    cases hd : env.cfg.dry_run with
    | true =>
      rw [hd] at h
      simp only [if_pos rfl] at h ⊢
      exact ih st k h
    | false =>
      rw [hd] at h
      simp only [Bool.false_eq_true, if_false] at h ⊢
      cases hm : env.moveOkAfk (c.clid.getD (-1)) with
      | true =>
        rw [hm] at h
        simp only [if_pos rfl] at h ⊢
        rcases ih _ k h with hin | hev
        · rcases storeContains_insert.mp hin with hk | hin
          · subst hk; simp
          · exact Or.inl hin
        · simp [hev]
      | false =>
        rw [hm] at h
        simp only [Bool.false_eq_true, if_false] at h ⊢
        rcases ih st k h with hin | hev
        · exact Or.inl hin
        · simp [hev]

theorem storeContains_erase_self {st : Store} {k : Int} :
    storeContains (storeErase st k) k = false := by
  cases h : storeContains (storeErase st k) k with
  | false => rfl
  | true => exact absurd rfl (storeContains_erase.mp h).1

/-- Every invocation of `fallback_action` is traced. -/
theorem fallback_action_fn_invoked (env : Env) (st : Store) (i : Int) :
    Ev.fallbackInvoked i ∈ (fallback_action_fn env st i).2 := by
  unfold fallback_action_fn
  split
  · simp
  · split
    · simp
    · split
      · simp
      · split
        · split <;> simp
        · simp

/-- `fallback_action` traces only its invocation and (possibly) the removal
of its client's entry. -/
theorem fallback_action_fn_evs (env : Env) (st : Store) (i : Int) :
    ∀ x ∈ (fallback_action_fn env st i).2,
      x = Ev.fallbackInvoked i ∨ x = Ev.fallbackRemoved i := by
  unfold fallback_action_fn
  split
  · simp
  · split
    · simp
    · split
      · simp
      · split
        · split <;> simp
        · simp

/-- The move-back attempt always traces the issued `clientmove`. -/
theorem move_back_do_move_issued (env : Env) (st : Store) (ch i : Int) :
    Ev.moveBackIssued i ∈ (move_back_do_move env st ch i).2 := by
  unfold move_back_do_move
  split <;> simp

/-- In dry-run mode the `move_to_afk` loop does nothing. -/
theorem move_to_afk_go_dry (env : Env) (h : env.cfg.dry_run = true) :
    ∀ (l : List Client) (st : Store), move_to_afk_go env l st = (st, []) := by
  intro l
  induction l with
  | nil => intro st; rw [move_to_afk_go]
  | cons c rest ih =>
    intro st
    rw [move_to_afk_go, h]
    simp only [if_pos rfl]
    exact ih st

/-! ### The claims -/

/-- C1: entries of the tracking store `client_channels` are added only by a
successful `clientmove` to the AFK channel inside `move_to_afk` (traced as
`Ev.movedToAfk`), and an individual entry is removed only by a successful
move back (`Ev.movedBack`), by the terminal fallback action
(`Ev.fallbackRemoved`), or by the `client_left` disconnect handler (which
removes exactly the leaving client's entry); no operation adds or removes an
individual entry otherwise. -/
theorem C1_store_single_owner (env : Env) (st : Store) :
    (∀ k, storeContains st k = true →
      storeContains (move_to_afk env st).1 k = true)
    ∧ (∀ k, storeContains (move_to_afk env st).1 k = true →
      storeContains st k = true ∨ Ev.movedToAfk k ∈ (move_to_afk env st).2)
    ∧ (∀ k, storeContains (resStore (move_all_back env st)) k = true →
      storeContains st k = true)
    ∧ (∀ k, storeContains st k = true →
      storeContains (resStore (move_all_back env st)) k = false →
      Ev.movedBack k ∈ resEvs (move_all_back env st) ∨
        Ev.fallbackRemoved k ∈ resEvs (move_all_back env st))
    ∧ (∀ i k, storeContains (fallback_action_fn env st i).1 k = true →
      storeContains st k = true)
    ∧ (∀ i k, storeContains st k = true →
      storeContains (fallback_action_fn env st i).1 k = false →
      k = i ∧ Ev.fallbackRemoved k ∈ (fallback_action_fn env st i).2)
    ∧ (∀ i k, storeContains (client_left i st) k = true →
      storeContains st k = true)
    ∧ (∀ i k, storeContains st k = true →
      storeContains (client_left i st) k = false → k = i) := by
  refine ⟨?_, ?_, ?_, ?_, ?_, ?_, ?_, ?_⟩
  · intro k h
    exact move_to_afk_go_mono env (get_idle_list env) st k h
  · intro k h
    exact move_to_afk_go_added env (get_idle_list env) st k h
  · intro k h
    cases hcl : env.channellistResult with
    | error e => simpa [move_all_back, hcl, resStore] using h
    | ok chlist =>
      refine move_all_back_go_sub env chlist (get_back_list env) st k ?_
      simpa [move_all_back, hcl] using h
  · intro k hin hout
    cases hcl : env.channellistResult with
    | error e =>
      have hst : storeContains st k = false := by
        simpa [move_all_back, hcl, resStore] using hout
      simp [hin] at hst
    | ok chlist =>
      have hout2 : storeContains
          (resStore (move_all_back_go env chlist (get_back_list env) st)) k
          = false := by
        simpa [move_all_back, hcl] using hout
      have hev := move_all_back_go_removed env chlist (get_back_list env)
        st k hin hout2
      simpa [move_all_back, hcl] using hev
  · intro i k h
    exact fallback_action_fn_sub env st i k h
  · intro i k hin hout
    exact fallback_action_fn_removed env st i k hin hout
  · intro i k h
    unfold client_left at h
    split at h
    · exact (storeContains_erase.mp h).2
    · exact h
  · intro i k hin hout
    unfold client_left at hout
    split at hout
    · exact storeContains_erase_eq hin hout
    · simp [hin] at hout

/-- Witness for C1: in `envW` the tracked client 5 is moved back
successfully and the removal of its entry carries the successful-move-back
trace; starting from the empty store, the entry that `move_to_afk` creates
for the idle client 6 carries the successful-move trace. -/
theorem C1_store_single_owner_witness :
    (Ev.movedBack 5 ∈ resEvs (move_all_back envW stW) ∨
      Ev.fallbackRemoved 5 ∈ resEvs (move_all_back envW stW))
    ∧ (storeContains ([] : Store) 6 = true ∨
      Ev.movedToAfk 6 ∈ (move_to_afk envW []).2) :=
  ⟨(C1_store_single_owner envW stW).2.2.2.1 5 (by decide) (by decide),
    (C1_store_single_owner envW []).2.1 6 (by decide)⟩

/-- C7: with dry-run enabled, `move_to_afk` issues no move operation and
creates no tracking entry: the store is returned unchanged and the event
trace is empty, for any candidate set. -/
theorem C7_dry_run_pure (env : Env) (st : Store)
    (h : env.cfg.dry_run = true) :
    move_to_afk env st = (st, []) :=
  move_to_afk_go_dry env h (get_idle_list env) st

/-- Witness for C7 at the concrete dry-run environment. -/
theorem C7_dry_run_pure_witness : move_to_afk envDry stW = (stW, []) :=
  C7_dry_run_pure envDry stW rfl

/-- Under the other candidate conditions, the `get_idle_list` filter keeps a
client exactly when its idle time divided by 1000 strictly exceeds the
threshold. -/
theorem idleKeep_eq_threshold (env : Env) (c : Client) (cid it : Int)
    (hcid : c.cid = some cid) (hit : c.client_idle_time = some it)
    (htype : c.client_type ≠ some 1)
    (hgrp : env.cfg.servergroups_to_exclude = none ∨
      excludedByGroup env c = false)
    (hafk : cid ≠ env.afk_channel) :
    (idleKeep env c = true ↔
      (it : ℚ) / 1000 > env.cfg.idle_time_seconds) := by
  have ht : (c.client_type == some 1) = false := by
    simp [htype]
  have ha : (cid == env.afk_channel) = false := by
    simp [hafk]
  have hg : (match env.cfg.servergroups_to_exclude with
      | some _ => excludedByGroup env c
      | none => false) = false := by
    rcases hgrp with h | h
    · rw [h]
    · cases env.cfg.servergroups_to_exclude <;> simp [h]
  simp only [idleKeep, hcid, hit, ht, hg, ha, Bool.false_eq_true, if_false,
    divInt_1000_eq]
  by_cases hle : (it : ℚ) / 1000 ≤ env.cfg.idle_time_seconds
  · simp only [hle, if_pos]
    constructor
    · intro h; exact absurd h (by simp)
    · intro h; exact absurd hle (not_le.mpr h)
  · simp only [hle, if_neg, not_false_eq_true]
    exact ⟨fun _ => lt_of_not_le hle, fun _ => trivial⟩

/-- A client kept by the `get_idle_list` filter has a location field. -/
theorem idleKeep_some_cid (env : Env) (c : Client)
    (h : idleKeep env c = true) : ∃ cid, c.cid = some cid := by
  cases hcid : c.cid with
  | none => rw [idleKeep, hcid] at h; exact absurd h (by simp)
  | some cid => exact ⟨cid, rfl⟩

/-- A client kept by the `get_idle_list` filter is not in the AFK channel. -/
theorem idleKeep_ne_afk (env : Env) (c : Client) (cid : Int)
    (hcid : c.cid = some cid) (h : idleKeep env c = true) :
    cid ≠ env.afk_channel := by
  intro he
  simp only [idleKeep, hcid, he] at h
  split at h
  · exact absurd h (by simp)
  · split at h
    · exact absurd h (by simp)
    · split at h
      · exact absurd h (by simp)
      · simp at h

/-- A client kept by the `get_back_list` filter is in the AFK channel. -/
theorem backKeep_eq_afk (env : Env) (c : Client) (cid : Int)
    (hcid : c.cid = some cid) (h : backKeep env c = true) :
    cid = env.afk_channel := by
  by_contra hne
  simp only [backKeep, hcid] at h
  cases hit : c.client_idle_time with
  | none => simp only [hit] at h; exact absurd h (by simp)
  | some it =>
    simp only [hit] at h
    rw [if_pos (by simpa using hne)] at h
    exact absurd h (by simp)

/-- The `get_back_list` filter keeps exactly the clients that carry both
required fields, sit in the AFK channel and are idle at most the
threshold. -/
theorem backKeep_iff (env : Env) (c : Client) :
    backKeep env c = true ↔
      ∃ cid it, c.cid = some cid ∧ c.client_idle_time = some it ∧
        cid = env.afk_channel ∧
        (it : ℚ) / 1000 ≤ env.cfg.idle_time_seconds := by
  cases hcid : c.cid with
  | none => simp [backKeep, hcid]
  | some cid =>
    cases hit : c.client_idle_time with
    | none => simp [backKeep, hcid, hit]
    | some it =>
      simp only [backKeep, hcid, hit, Option.some.injEq]
      by_cases ha : cid = env.afk_channel
      · rw [if_neg (by simp [ha])]
        by_cases hgt : Rat.divInt it 1000 > env.cfg.idle_time_seconds
        · rw [if_pos hgt]
          rw [divInt_1000_eq] at hgt
          constructor
          · intro h; exact absurd h (by simp)
          · rintro ⟨cid2, it2, hc2, hi2, hafk2, hle2⟩
            subst hc2; subst hi2; subst hafk2
            exact absurd hle2 (not_le.mpr hgt)
        · rw [if_neg hgt]
          rw [divInt_1000_eq, not_lt] at hgt
          exact ⟨fun _ => ⟨cid, it, rfl, rfl, ha, hgt⟩, fun _ => rfl⟩
      · rw [if_pos (by simpa using ha)]
        constructor
        · intro h; exact absurd h (by simp)
        · rintro ⟨cid2, it2, hc2, hi2, hafk2, hle2⟩
          subst hc2; subst hafk2
          exact absurd rfl ha

/-- C2: a snapshot client that meets all other candidate conditions is an
idle (move-to-AFK) candidate exactly when its idle time in milliseconds
divided by 1000 strictly exceeds the configured threshold; at exactly the
threshold it is not a candidate, and one millisecond above it is. -/
theorem C2_threshold_strict (env : Env) (l : List Client) (c : Client)
    (cid it : Int)
    (hsnap : env.snapshot = some l) (hc : c ∈ l)
    (hcid : c.cid = some cid) (hit : c.client_idle_time = some it)
    (htype : c.client_type ≠ some 1)
    (hgrp : env.cfg.servergroups_to_exclude = none ∨
      excludedByGroup env c = false)
    (hafk : cid ≠ env.afk_channel) :
    (c ∈ get_idle_list env ↔
      (it : ℚ) / 1000 > env.cfg.idle_time_seconds)
    ∧ ((it : ℚ) / 1000 = env.cfg.idle_time_seconds →
      c ∉ get_idle_list env)
    ∧ ((it : ℚ) = 1000 * env.cfg.idle_time_seconds + 1 →
      c ∈ get_idle_list env) := by
  have hmem : c ∈ get_idle_list env ↔
      (it : ℚ) / 1000 > env.cfg.idle_time_seconds := by
    simp only [get_idle_list, hsnap]
    rw [List.mem_filter,
      idleKeep_eq_threshold env c cid it hcid hit htype hgrp hafk]
    exact ⟨fun h => h.2, fun h => ⟨hc, h⟩⟩
  refine ⟨hmem, ?_, ?_⟩
  · intro heq hmem2
    have hgt := hmem.mp hmem2
    rw [heq] at hgt
    exact lt_irrefl _ hgt
  · intro heq
    apply hmem.mpr
    rw [heq, gt_iff_lt, lt_div_iff₀ (by norm_num : (0 : ℚ) < 1000)]
    linarith

/-- Witness for C2: the client idle for 600001 ms is a candidate at
threshold 600 s. -/
theorem C2_threshold_strict_witness : cIdleJust ∈ get_idle_list envC2 :=
  (C2_threshold_strict envC2 [cIdleExact, cIdleJust] cIdleJust 10 600001
    rfl (by decide) rfl rfl (by decide) (Or.inl rfl) (by decide)).2.2
    (by norm_num [envC2, envW, cfgW])

/-- C8: a client is a return (move-back) candidate iff it is in the
snapshot, carries both required fields, sits in the AFK channel, and its
idle time divided by 1000 is at most the threshold. (`get_back_list` is a
pure function of the snapshot and the configuration: the tracking store
does not occur in its type.) -/
theorem C8_return_candidates (env : Env) (l : List Client) (c : Client)
    (hsnap : env.snapshot = some l) :
    c ∈ get_back_list env ↔
      c ∈ l ∧ ∃ cid it, c.cid = some cid ∧ c.client_idle_time = some it ∧
        cid = env.afk_channel ∧
        (it : ℚ) / 1000 ≤ env.cfg.idle_time_seconds := by
  simp only [get_back_list, hsnap]
  rw [List.mem_filter, backKeep_iff]

/-- Witness for C8: the active client in the AFK channel is a return
candidate. -/
theorem C8_return_candidates_witness : cBack ∈ get_back_list envW :=
  (C8_return_candidates envW [cBack, cIdle] cBack rfl).mpr
    ⟨by decide, 1, 0, rfl, rfl, rfl, by norm_num [envW, cfgW]⟩

/-- C10: the idle-candidate list and the return-candidate list of the same
snapshot are disjoint: an idle candidate is outside the AFK channel, a
return candidate inside it. -/
theorem C10_disjoint_candidates (env : Env) (c : Client)
    (h : c ∈ get_idle_list env) : c ∉ get_back_list env := by
  intro hb
  cases hsnap : env.snapshot with
  | none => simp only [get_idle_list, hsnap] at h; simp at h
  | some l =>
    simp only [get_idle_list, hsnap] at h
    simp only [get_back_list, hsnap] at hb
    have hik := (List.mem_filter.mp h).2
    have hbk := (List.mem_filter.mp hb).2
    obtain ⟨cid, hcid⟩ := idleKeep_some_cid env c hik
    exact idleKeep_ne_afk env c cid hcid hik
      (backKeep_eq_afk env c cid hcid hbk)

/-- Witness for C10 at the concrete snapshot of `envW`. -/
theorem C10_disjoint_candidates_witness : cIdle ∉ get_back_list envW :=
  C10_disjoint_candidates envW cIdle (by decide)

/-- C3: for a tracked candidate on which the move back is attempted, a
successful `clientmove` removes the tracking entry, while a raised
`TS3QueryException` of any error id leads to a logged message (the
`if`/`if`/`if`-`else` chain always logs at least the password or the
unclassified message) and to the fallback action being invoked — regardless
of the id. -/
theorem C3_move_back_failure_fallback (env : Env) (st : Store)
    (channel_id client_id : Int) :
    (env.clientmoveBack channel_id client_id = none →
      storeContains (move_back_do_move env st channel_id client_id).1
        client_id = false ∧
      Ev.movedBack client_id ∈
        (move_back_do_move env st channel_id client_id).2)
    ∧ (∀ e, env.clientmoveBack channel_id client_id = some e →
      Ev.fallbackInvoked client_id ∈
        (move_back_do_move env st channel_id client_id).2 ∧
      (Ev.logPassword client_id ∈
          (move_back_do_move env st channel_id client_id).2 ∨
        Ev.logUnclassified client_id ∈
          (move_back_do_move env st channel_id client_id).2)) := by
  constructor
  · intro hok
    simp only [move_back_do_move, hok]
    exact ⟨storeContains_erase_self, by simp⟩
  · intro e he
    simp only [move_back_do_move, he]
    constructor
    · have hmem := fallback_action_fn_invoked env st client_id
      simp [hmem]
    · by_cases h781 : e.id = 781
      · left; simp [h781]
      · right; simp [h781]

/-- Witness for C3: in `envW` a successful move back removes the entry; in
`envFail` the move back failing with id 781 logs and invokes the
fallback. -/
theorem C3_move_back_failure_fallback_witness :
    (storeContains (move_back_do_move envW stW 10 5).1 5 = false ∧
      Ev.movedBack 5 ∈ (move_back_do_move envW stW 10 5).2)
    ∧ (Ev.fallbackInvoked 5 ∈ (move_back_do_move envFail stW 10 5).2 ∧
      (Ev.logPassword 5 ∈ (move_back_do_move envFail stW 10 5).2 ∨
        Ev.logUnclassified 5 ∈ (move_back_do_move envFail stW 10 5).2)) :=
  ⟨(C3_move_back_failure_fallback envW stW 10 5).1 rfl,
    (C3_move_back_failure_fallback envFail stW 10 5).2 ⟨781⟩ rfl⟩

/-- C4: contrary to the fail-open contract, when an exclusion set is
configured and `servergrouplist()` raises, `update_servergroup_ids_list`
does not complete normally with an empty exclusion set: after the handler
logs, the `for servergroup in servergroup_list:` line reads the
never-assigned local and raises `UnboundLocalError`, which propagates. -/
theorem C4_refresh_failure_raises :
    update_servergroup_ids_list (some "Admins") (.error ()) =
      Except.error PyErr.unboundLocal := rfl

/-- C5 counterexample: with the origin channel gone (`channelinfo` raising
id 768) for the tracked candidate 5, the iteration only logs and skips: no
fallback is invoked and the tracking entry survives — refuting the claim
that the fallback action is invoked for that candidate. -/
theorem C5_channel_gone_counterexample :
    move_back_client envGone [] stW cBack =
      .ok (stW, [Ev.logChannelGoneInfo 5])
    ∧ Ev.fallbackInvoked 5 ∉ resEvs (move_back_client envGone [] stW cBack)
    ∧ storeContains (resStore (move_back_client envGone [] stW cBack)) 5
      = true :=
  ⟨rfl, by decide, by decide⟩

/-- C5 (amended): when the per-candidate `channelinfo` query fails with
error id 768, the failure is logged and the candidate is skipped by
`continue`: the fallback action is not invoked and the tracking entry is
retained. -/
theorem C5_channel_gone_skips (env : Env) (chlist : List ChannelEntry)
    (st : Store) (c : Client) (e : TSErr)
    (htracked : storeContains st (c.clid.getD (-1)) = true)
    (hinfo : env.channelinfo (storeGet st (c.clid.getD (-1))) = .error e)
    (hid : e.id = 768) :
    move_back_client env chlist st c =
      .ok (st, [Ev.logChannelGoneInfo (c.clid.getD (-1))]) := by
  simp [move_back_client, htracked, hinfo, hid]

/-- Witness for C5 (amended) at the concrete channel-gone environment. -/
theorem C5_channel_gone_skips_witness :
    move_back_client envGone [] stW cBack =
      .ok (stW, [Ev.logChannelGoneInfo 5]) :=
  C5_channel_gone_skips envGone [] stW cBack ⟨768⟩ (by decide) rfl rfl

/-- C6: with `resp_channel_settings` enabled and the origin channel found in
the per-tick `channellist`, the move back is attempted exactly when the
origin is neither full (occupancy at or above `channel_maxclients`, with
−1 meaning unlimited and never rejecting) nor password-protected; when it
is rejected, the fallback action is invoked instead. -/
theorem C6_capacity_password_guard (env : Env) (chlist : List ChannelEntry)
    (st : Store) (c : Client) (info : ChannelInfo) (details : ChannelEntry)
    (htracked : storeContains st (c.clid.getD (-1)) = true)
    (hresp : env.cfg.resp_channel_settings = true)
    (hinfo : env.channelinfo (storeGet st (c.clid.getD (-1))) = .ok info)
    (hdetails : chlist.find?
      (fun ch => ch.cid == storeGet st (c.clid.getD (-1))) = some details) :
    (Ev.moveBackIssued (c.clid.getD (-1)) ∈
        resEvs (move_back_client env chlist st c) ↔
      ¬ ((info.channel_maxclients ≠ -1 ∧
          details.total_clients ≥ info.channel_maxclients) ∨
        info.channel_flag_password ≠ 0))
    ∧ (((info.channel_maxclients ≠ -1 ∧
          details.total_clients ≥ info.channel_maxclients) ∨
        info.channel_flag_password ≠ 0) →
      Ev.fallbackInvoked (c.clid.getD (-1)) ∈
        resEvs (move_back_client env chlist st c)) := by
  by_cases hfull : (info.channel_maxclients != -1 &&
      decide (details.total_clients ≥ info.channel_maxclients)) = true
  · have hred : move_back_client env chlist st c =
        .ok (fallback_action_fn env st (c.clid.getD (-1))) := by
      simp [move_back_client, htracked, hinfo, hdetails, hresp, hfull]
    have hP : info.channel_maxclients ≠ -1 ∧
        details.total_clients ≥ info.channel_maxclients := by
      simpa [Bool.and_eq_true, bne_iff_ne, decide_eq_true_eq] using hfull
    rw [hred, resEvs_ok]
    constructor
    · constructor
      · intro hmem
        rcases fallback_action_fn_evs env st _ _ hmem with h | h <;> simp at h
      · intro hnot; exact absurd (Or.inl hP) hnot
    · intro _; exact fallback_action_fn_invoked env st _
  · by_cases hpw : (info.channel_flag_password != 0) = true
    · have hred : move_back_client env chlist st c =
          .ok (fallback_action_fn env st (c.clid.getD (-1))) := by
        simp [move_back_client, htracked, hinfo, hdetails, hresp, hfull, hpw]
      have hP : info.channel_flag_password ≠ 0 := by
        simpa [bne_iff_ne] using hpw
      rw [hred, resEvs_ok]
      constructor
      · constructor
        · intro hmem
          rcases fallback_action_fn_evs env st _ _ hmem with h | h <;>
            simp at h
        · intro hnot; exact absurd (Or.inr hP) hnot
      · intro _; exact fallback_action_fn_invoked env st _
    · have hred : move_back_client env chlist st c =
          .ok (move_back_do_move env st (storeGet st (c.clid.getD (-1)))
            (c.clid.getD (-1))) := by
        simp [move_back_client, htracked, hinfo, hdetails, hresp, hfull, hpw]
      have hnfull : ¬ (info.channel_maxclients ≠ -1 ∧
          details.total_clients ≥ info.channel_maxclients) := by
        simpa [Bool.and_eq_true, bne_iff_ne, decide_eq_true_eq] using hfull
      have hnpw : ¬ info.channel_flag_password ≠ 0 := by
        simpa [bne_iff_ne] using hpw
      have hnP := not_or.mpr ⟨hnfull, hnpw⟩
      rw [hred, resEvs_ok]
      constructor
      · exact ⟨fun _ => hnP, fun _ => move_back_do_move_issued env st _ _⟩
      · intro hp; exact absurd hp hnP

/-- Witness for C6: origin channel 10 at capacity (occupancy 5, limit 5)
routes the tracked client 5 to the fallback action. -/
theorem C6_capacity_password_guard_witness :
    Ev.fallbackInvoked 5 ∈
      resEvs (move_back_client envFull [⟨10, 5⟩] stW cBack) :=
  (C6_capacity_password_guard envFull [⟨10, 5⟩] stW cBack ⟨5, 0⟩ ⟨10, 5⟩
    (by decide) rfl rfl (by decide)).2 (Or.inl ⟨by decide, by decide⟩)

/-- C9: when the per-candidate `channelinfo` query fails with an id other
than 768 while channel settings are respected and the origin channel is in
the channel list, the handler neither re-raises nor assigns `channel_info`,
and the capacity check's read of the unassigned local raises
`UnboundLocalError`: the remaining candidates of the tick are not
processed, the store is left as it was, and the exception is caught only by
the tick-level handler, which ends the pass (the move-to-AFK phase does not
run). -/
theorem C9_unbound_channel_info_aborts (env : Env)
    (chlist : List ChannelEntry) (st : Store) (c : Client)
    (rest : List Client) (e : TSErr)
    (hback : get_back_list env = c :: rest)
    (hchl : env.channellistResult = .ok chlist)
    (htracked : storeContains st (c.clid.getD (-1)) = true)
    (hinfo : env.channelinfo (storeGet st (c.clid.getD (-1))) = .error e)
    (hid : e.id ≠ 768)
    (hresp : env.cfg.resp_channel_settings = true)
    (hdetails : (chlist.find? (fun ch =>
      ch.cid == storeGet st (c.clid.getD (-1)))).isSome = true) :
    move_all_back env st = .error (st, [])
    ∧ (env.cfg.enable_auto_move_back = true → tick env st = (st, [])) := by
  have hmbc : move_back_client env chlist st c = .error (st, []) := by
    simp [move_back_client, htracked, hinfo, hid, hresp, hdetails]
  have hgo : move_all_back_go env chlist (c :: rest) st =
      .error (st, []) := by
    rw [move_all_back_go, hmbc]
  have hmab : move_all_back env st = .error (st, []) := by
    rw [move_all_back, hchl, hback]
    exact hgo
  refine ⟨hmab, fun hen => ?_⟩
  simp [tick, hen, hmab]

/-- Witness for C9 at the concrete crashing environment. -/
theorem C9_unbound_channel_info_aborts_witness :
    move_all_back envCrash stW = .error (stW, [])
    ∧ tick envCrash stW = (stW, []) := by
  have h := C9_unbound_channel_info_aborts envCrash [⟨10, 3⟩] stW cBack []
    ⟨0⟩ (by decide) rfl (by decide) rfl (by decide) rfl (by decide)
  exact ⟨h.1, h.2 rfl⟩
